import Mathlib

/-
  Verification of the Pocket Scout v7 adaptive decision engine.

  Shallow embedding of:
  - the HMM regime classifier (window.HMMEngine),
  - the pure-JavaScript neural-network predictor (window.AIEngine, ai-engine.js),
  - the TensorFlow.js predictor variant's training-buffer logic (window.AIEngine, TF file),
  - the Q-learning policy (window.RLEngine),
  - the backtesting engine (window.BacktestingEngine).

  Numbers are modelled as exact rationals; JavaScript non-finite values
  (NaN, undefined read out of an array's bounds, and any non-finite division
  result) are modelled as the `none` value of `Option ℚ` where the source's
  arithmetic can produce them.  Clock reads (Date.now timestamps stored in
  history entries) are omitted: no claim mentions them.
-/

set_option maxRecDepth 4000

namespace PocketScout

/-! ## HMM regime engine (window.HMMEngine) -/

/-- States are indices: 0 TRENDING, 1 RANGING, 2 VOLATILE, 3 CHAOTIC. -/
abbrev StateIdx := Fin 4

/-- Sum of a 4-vector, as the source's reduce over the 4-element array. -/
def sum4 (p : StateIdx → ℚ) : ℚ :=
  p 0 + p 1 + p 2 + p 3

/-- Default transition probability matrix (rows: current state, cols: next state). -/
def initialTransitionMatrix : StateIdx → StateIdx → ℚ :=
  ![![0.7, 0.2, 0.08, 0.02],
    ![0.15, 0.75, 0.08, 0.02],
    ![0.1, 0.15, 0.65, 0.1],
    ![0.05, 0.1, 0.35, 0.5]]

/-- `calculateEmissionProbabilities`: heuristic per-state likelihoods,
normalized to sum to 1.  The tick-frequency and spread arguments are taken
but unused, exactly as in the source. -/
def calculateEmissionProbabilities (adx atrRatio _tickFrequency _spreadEstimate : ℚ) :
    StateIdx → ℚ :=
  let pT : ℚ := if adx > 25 then min 1 (adx / 50) * 0.9 else 0.1
  let pR : ℚ := if adx < 20 ∧ atrRatio < 0.015 then 0.8
                else if adx < 25 then 0.5 else 0.1
  let pV : ℚ := if atrRatio > 0.015 ∧ atrRatio < 0.03 then min 1 (atrRatio / 0.03) * 0.85
                else 0.15
  let pC : ℚ := if (adx < 15 ∧ atrRatio > 0.025) ∨ atrRatio > 0.035 then 0.9
                else if atrRatio > 0.02 then 0.4 else 0.05
  let raw : StateIdx → ℚ := ![pT, pR, pV, pC]
  fun i => raw i / sum4 raw

/-- One trip of the argmax loop: `if (normalizedProbs[i] > maxProb) ...`. -/
def argmaxStep (p : StateIdx → ℚ) (acc : StateIdx × ℚ) (i : StateIdx) : StateIdx × ℚ :=
  if p i > acc.2 then (i, p i) else acc

/-- The source's argmax loop: `maxProb = 0; bestState = currentState;` then
scan states 0..3, keeping strict improvements only. -/
def argmaxLoop (p : StateIdx → ℚ) (current : StateIdx) : StateIdx × ℚ :=
  ([0, 1, 2, 3] : List StateIdx).foldl (argmaxStep p) (current, 0)

/-- One entry of the state-history ring (Date.now timestamp omitted). -/
structure HistEntry where
  state : StateIdx
  confidence : ℚ
  adx : ℚ
  atrRatio : ℚ
  probs : StateIdx → ℚ

/-- The HMM module's mutable state: currentState, stateHistory, transitionMatrix. -/
structure HMMState where
  currentState : StateIdx
  stateHistory : List HistEntry
  transitionMatrix : StateIdx → StateIdx → ℚ

/-- Module state at load: currentState = RANGING, empty history, default matrix. -/
def initialHMMState : HMMState :=
  { currentState := 1, stateHistory := [], transitionMatrix := initialTransitionMatrix }

/-- An observation passed to `detectRegime`; `none` models a missing field or NaN
(JavaScript treats both, along with 0, as falsy in the input guard). -/
structure Observation where
  adx : Option ℚ
  atr : Option ℚ
  avgPrice : Option ℚ
  tickFrequency : Option ℚ
  spreadEstimate : Option ℚ

/-- JavaScript falsiness of a numeric field: undefined/NaN (`none`) or 0. -/
def jsFalsy : Option ℚ → Bool
  | none => true
  | some q => q == 0

/-- `stateHistory.push(..); if (stateHistory.length > 100) stateHistory.shift()`. -/
def capHistory (h : List HistEntry) : List HistEntry :=
  if h.length > 100 then h.tail else h

/-- Result object of `detectRegime` (stateName is derived from state). -/
structure RegimeResult where
  state : StateIdx
  confidence : ℚ
  stateProbs : StateIdx → ℚ

/-- `detectRegime`: soft-fail on a falsy input field, otherwise emission ×
transition row, normalize, argmax with strict improvement, push history. -/
def detectRegime (o : Observation) (s : HMMState) : HMMState × RegimeResult :=
  if jsFalsy o.adx || jsFalsy o.atr || jsFalsy o.avgPrice then
    (s, { state := s.currentState, confidence := 50, stateProbs := fun _ => 0.25 })
  else
    let adx := o.adx.getD 0
    let atr := o.atr.getD 0
    let avgPrice := o.avgPrice.getD 0
    let atrRatio := atr / avgPrice
    let em := calculateEmissionProbabilities adx atrRatio
      (o.tickFrequency.getD 1) (o.spreadEstimate.getD 0.0001)
    let posterior : StateIdx → ℚ := fun j => em j * s.transitionMatrix s.currentState j
    let np : StateIdx → ℚ := fun j => posterior j / sum4 posterior
    let best := argmaxLoop np s.currentState
    let s' : HMMState :=
      { currentState := best.1,
        stateHistory :=
          capHistory (s.stateHistory ++ [⟨best.1, best.2 * 100, adx, atrRatio, np⟩]),
        transitionMatrix := s.transitionMatrix }
    (s', { state := best.1, confidence := best.2 * 100, stateProbs := np })

/-- Count of observed i→j transitions over consecutive history entries. -/
def countTrans (l : List StateIdx) (i j : StateIdx) : ℕ :=
  (l.zip l.tail).countP fun p => p.1 == i && p.2 == j

/-- `updateTransitionMatrix`: once history length ≥ 20, blend observed
row-normalized transition frequencies into the matrix with α = 0.1,
skipping rows with no observed transitions. -/
def updateTransitionMatrix (s : HMMState) : HMMState :=
  if s.stateHistory.length < 20 then s
  else
    let states := s.stateHistory.map HistEntry.state
    let M : StateIdx → StateIdx → ℚ := fun i j =>
      let rowSum := countTrans states i 0 + countTrans states i 1 +
        countTrans states i 2 + countTrans states i 3
      if rowSum > 0 then
        (1 - 0.1) * s.transitionMatrix i j + 0.1 * ((countTrans states i j : ℚ) / (rowSum : ℚ))
      else s.transitionMatrix i j
    { s with transitionMatrix := M }

/-- `reset`: back to RANGING with empty history; the matrix is untouched. -/
def reset (s : HMMState) : HMMState :=
  { s with currentState := 1, stateHistory := [] }

/-- Any sequence of `updateTransitionMatrix` calls from the initial module state,
with the history ring holding arbitrary contents before each call. -/
def runUpdates (hs : List (List HistEntry)) : HMMState :=
  hs.foldl (fun s h => updateTransitionMatrix { s with stateHistory := h }) initialHMMState

/-! ## Pure-JavaScript neural network (ai-engine.js)

`JsNum` is `Option ℚ`: `none` stands for any non-finite JavaScript number
(NaN, or the NaN produced by arithmetic on an out-of-bounds `undefined` read).
-/

abbrev JsNum := Option ℚ

def jadd : JsNum → JsNum → JsNum
  | some a, some b => some (a + b)
  | _, _ => none

def jsub : JsNum → JsNum → JsNum
  | some a, some b => some (a - b)
  | _, _ => none

def jmul : JsNum → JsNum → JsNum
  | some a, some b => some (a * b)
  | _, _ => none

/-- Division; a zero divisor yields a non-finite result in JavaScript, so `none`. -/
def jdiv : JsNum → JsNum → JsNum
  | some a, some b => if b = 0 then none else some (a / b)
  | _, _ => none

/-- `Math.max` of two values (NaN-propagating). -/
def jmax2 : JsNum → JsNum → JsNum
  | some a, some b => some (max a b)
  | _, _ => none

/-- `Math.max(0, x)`, the ReLU of the source (NaN-propagating). -/
def jmax0 : JsNum → JsNum
  | some a => some (max 0 a)
  | none => none

/-- `Math.exp`, abstracted by an arbitrary finite approximation `e`;
NaN maps to NaN. -/
def jexp (e : ℚ → ℚ) : JsNum → JsNum
  | some a => some (e a)
  | none => none

/-- JavaScript `a > b` (false whenever either side is NaN). -/
def jgtb : JsNum → JsNum → Bool
  | some a, some b => decide (b < a)
  | _, _ => false

/-- Array indexing: an out-of-bounds read gives `undefined`, which behaves as
a non-finite value in the arithmetic contexts used here. -/
def jsIndex (v : List JsNum) (i : ℕ) : JsNum :=
  (v.get? i).getD none

/-- `row.reduce((sum, val, i) => sum + val * vector[i], 0)`, walking the row
with its running index into `vector`. -/
def dotAux (v : List JsNum) : List JsNum → ℕ → JsNum → JsNum
  | [], _, acc => acc
  | a :: rest, i, acc => dotAux v rest (i + 1) (jadd acc (jmul a (jsIndex v i)))

/-- `matmul(matrix, vector)`: the dot of every row against `vector`. -/
def matmul (m : List (List JsNum)) (v : List JsNum) : List JsNum :=
  m.map fun row => dotAux v row 0 (some 0)

/-- `.map((v, i) => v + b[i])`, walking a layer's pre-activations with index. -/
def withBias (b : List JsNum) : List JsNum → ℕ → List JsNum
  | [], _ => []
  | x :: xs, i => jadd x (jsIndex b i) :: withBias b xs (i + 1)

/-- A dense layer followed by the source's `relu` (`Math.max(0, x)`). -/
def reluLayer (pre b : List JsNum) : List JsNum :=
  (withBias b pre 0).map jmax0

/-- The output layer adds the bias without an activation. -/
def biasLayer (pre b : List JsNum) : List JsNum :=
  withBias b pre 0

/-- `exps.reduce((a, b) => a + b, 0)`. -/
def jsum (l : List JsNum) : JsNum :=
  l.foldl jadd (some 0)

/-- `Math.max(...arr)` for the nonempty arrays used here. -/
def jmaxList : List JsNum → JsNum
  | [] => none
  | x :: xs => xs.foldl jmax2 x

/-- `softmax(arr)`: subtract the max, exponentiate, normalize by the sum. -/
def softmax (e : ℚ → ℚ) (arr : List JsNum) : List JsNum :=
  let mx := jmaxList arr
  let exps := arr.map fun x => jexp e (jsub x mx)
  let s := jsum exps
  exps.map fun x => jdiv x s

/-- The SimpleNN weight fields, as built by `new SimpleNN(5, 16, 8, 2)`:
`w1` is `randomMatrix(5, 16)` (5 rows of 16 columns), `b1` has 16 entries,
`w2` is 16 × 8, `b2` has 8 entries, `w3` is 8 × 2, `b3` has 2 entries. -/
structure SimpleNN where
  w1 : List (List JsNum)
  b1 : List JsNum
  w2 : List (List JsNum)
  b2 : List JsNum
  w3 : List (List JsNum)
  b3 : List JsNum

/-- `forward`: three layers, ReLU on the two hidden ones, softmax at the end. -/
def forward (e : ℚ → ℚ) (m : SimpleNN) (input : List JsNum) : List JsNum :=
  let h1 := reluLayer (matmul m.w1 input) m.b1
  let h2 := reluLayer (matmul m.w2 h1) m.b2
  let out := biasLayer (matmul m.w3 h2) m.b3
  softmax e out

/-- The object returned by the module-level `predict` (action true = BUY). -/
structure Prediction where
  buy : Bool
  buyProb : JsNum
  sellProb : JsNum
  confidence : JsNum

/-- The module-level `predict`: forward pass, then
`action = buyProb > sellProb ? BUY : SELL`, `confidence = max(..) * 100`. -/
def predictNN (e : ℚ → ℚ) (m : SimpleNN) (input : List JsNum) : Prediction :=
  let probs := forward e m input
  let buyProb := jsIndex probs 0
  let sellProb := jsIndex probs 1
  { buy := jgtb buyProb sellProb,
    buyProb := buyProb,
    sellProb := sellProb,
    confidence := jmul (jmax2 buyProb sellProb) (some 100) }

/-- `normalizeFeatures(rsi, adx, atr, williamsR, cci)` of ai-engine.js. -/
def normalizeFeaturesJS (rsi adx atr williamsR cci : ℚ) : List ℚ :=
  [rsi / 100, adx / 100, min (atr * 100) 1, (williamsR + 100) / 100, (cci + 200) / 400]

/-! ## Q-learning policy (window.RLEngine) -/

inductive Action where
  | BUY
  | SELL
deriving DecidableEq

inductive Regime where
  | TRENDING
  | RANGING
  | VOLATILE
  | CHAOTIC
deriving DecidableEq

/-- Lookup of a regime string among the four keys of the Q-table object. -/
def parseRegime (s : String) : Option Regime :=
  if s = "TRENDING" then some .TRENDING
  else if s = "RANGING" then some .RANGING
  else if s = "VOLATILE" then some .VOLATILE
  else if s = "CHAOTIC" then some .CHAOTIC
  else none

/-- The canonical name of each regime key. -/
def regimeName : Regime → String
  | .TRENDING => "TRENDING"
  | .RANGING => "RANGING"
  | .VOLATILE => "VOLATILE"
  | .CHAOTIC => "CHAOTIC"

/-- A reward-history entry (Date.now timestamp omitted). -/
structure RewardEvent where
  regime : String
  action : Action
  reward : ℚ
  oldQ : ℚ
  newQ : ℚ
deriving DecidableEq

/-- RLEngine module state: the Q-table rows, the reward ring, the counter. -/
structure RLState where
  q : Regime → Action → ℚ
  rewardHistory : List RewardEvent
  totalUpdates : ℕ

/-- All eight Q-entries start at 0.5. -/
def initialRLState : RLState :=
  { q := fun _ _ => 0.5, rewardHistory := [], totalUpdates := 0 }

/-- `rewardHistory.push(..); if (rewardHistory.length > 500) rewardHistory.shift()`. -/
def capReward (h : List RewardEvent) : List RewardEvent :=
  if h.length > 500 then h.tail else h

/-- `updateQValue(regime, action, reward, nextRegime)`: guarded no-op when either
regime key is absent, otherwise the Q-learning update with α = 0.1, γ = 0.9,
plus a reward-history append. -/
def updateQValue (s : RLState) (regime : String) (action : Action) (reward : ℚ)
    (nextRegime : String) : RLState :=
  match parseRegime regime, parseRegime nextRegime with
  | some r, some n =>
    let currentQ := s.q r action
    let maxNextQ := max (s.q n .BUY) (s.q n .SELL)
    let newQ := currentQ + 0.1 * (reward + 0.9 * maxNextQ - currentQ)
    { q := fun r' a' => if r' = r ∧ a' = action then newQ else s.q r' a',
      rewardHistory := capReward (s.rewardHistory ++ [⟨regime, action, reward, currentQ, newQ⟩]),
      totalUpdates := s.totalUpdates + 1 }
  | _, _ => s

/-- One call `updateQValue(regime, action, +1, regime)` with fixed regime and action. -/
def qStep (r : Regime) (a : Action) (s : RLState) : RLState :=
  updateQValue s (regimeName r) a 1 (regimeName r)

/-- `n` repeated such calls from the initial module state. -/
def iterQ (r : Regime) (a : Action) (n : ℕ) : RLState :=
  (qStep r a)^[n] initialRLState

/-! ## Backtesting engine (window.BacktestingEngine) -/

inductive SResult where
  | WIN
  | LOSS
  | PENDING
deriving DecidableEq

/-- A resolved (or pending) historical signal, with the fields the backtest reads. -/
structure Signal where
  result : SResult
  regime : String
deriving DecidableEq

/-- The accumulator threaded by the `signals.forEach` loop of `runBacktest`. -/
structure BTAcc where
  wins : ℕ
  losses : ℕ
  totalProfit : ℚ
  equity : ℚ
  peak : ℚ
  maxDrawdown : ℚ
  equityCurve : List ℚ
  regimeWins : Regime → ℕ
  regimeLosses : Regime → ℕ

/-- One loop iteration: tally the trade (stake 10, payout 0.85), tally the
regime bucket when the regime key is recognized, push the equity point,
then track the peak-to-trough percentage drawdown. -/
def btStep (acc : BTAcc) (sig : Signal) : BTAcc :=
  let acc1 :=
    match sig.result with
    | .WIN =>
      let a := { acc with wins := acc.wins + 1,
                          totalProfit := acc.totalProfit + 10 * 0.85,
                          equity := acc.equity + 10 * 0.85 }
      match parseRegime sig.regime with
      | some r => { a with regimeWins := fun r' => if r' = r then a.regimeWins r' + 1 else a.regimeWins r' }
      | none => a
    | .LOSS =>
      let a := { acc with losses := acc.losses + 1,
                          totalProfit := acc.totalProfit - 10,
                          equity := acc.equity - 10 }
      match parseRegime sig.regime with
      | some r => { a with regimeLosses := fun r' => if r' = r then a.regimeLosses r' + 1 else a.regimeLosses r' }
      | none => a
    | .PENDING => acc
  let acc2 := { acc1 with equityCurve := acc1.equityCurve ++ [acc1.equity] }
  let peak' := if acc2.equity > acc2.peak then acc2.equity else acc2.peak
  let dd := (peak' - acc2.equity) / peak' * 100
  { acc2 with peak := peak',
              maxDrawdown := if dd > acc2.maxDrawdown then dd else acc2.maxDrawdown }

/-- The initial accumulator: $1000 virtual balance, curve seeded with it. -/
def btInit : BTAcc :=
  { wins := 0, losses := 0, totalProfit := 0, equity := 1000, peak := 0,
    maxDrawdown := 0, equityCurve := [1000], regimeWins := fun _ => 0,
    regimeLosses := fun _ => 0 }

/-- The statistics object `runBacktest` returns on a nonempty input. -/
structure BacktestResult where
  totalSignals : ℕ
  totalTrades : ℕ
  wins : ℕ
  losses : ℕ
  winRate : ℚ
  profitFactor : ℚ
  netProfit : ℚ
  roi : ℚ
  maxDrawdown : ℚ
  equityCurve : List ℚ
  endBalance : ℚ
deriving DecidableEq

/-- `runBacktest(signals)`: the empty-input error sentinel is `none`;
otherwise fold the loop and assemble the statistics, including
`profitFactor = losses > 0 ? (wins*10*0.85)/(losses*10) : 0`. -/
def runBacktest (signals : List Signal) : Option BacktestResult :=
  if signals.length = 0 then none
  else
    let acc := signals.foldl btStep btInit
    let totalTrades := acc.wins + acc.losses
    some
      { totalSignals := signals.length,
        totalTrades := totalTrades,
        wins := acc.wins,
        losses := acc.losses,
        winRate := if totalTrades > 0 then (acc.wins : ℚ) / (totalTrades : ℚ) * 100 else 0,
        profitFactor := if acc.losses > 0 then ((acc.wins : ℚ) * 10 * 0.85) / ((acc.losses : ℚ) * 10) else 0,
        netProfit := acc.equity - 1000,
        roi := (acc.equity - 1000) / 1000 * 100,
        maxDrawdown := acc.maxDrawdown,
        equityCurve := acc.equityCurve,
        endBalance := acc.equity }

/-! ## The two AIEngine variants' training-buffer logic

Both the pure-JavaScript engine (ai-engine.js) and the TensorFlow.js
variant define `normalizeFeatures` and `addTrainingSample`.  Each is
embedded separately from its own file so they can be compared.
-/

/-- A training sample: the 5 normalized features and the one-hot label. -/
structure TrainSample where
  features : List ℚ
  label : List ℚ
deriving DecidableEq

/-- The training-buffer state shared by both engines: the ring and the counter. -/
structure TrainState where
  trainingData : List TrainSample
  signalCount : ℕ
deriving DecidableEq

namespace AIJS

/-- ai-engine.js `normalizeFeatures`. -/
def normalizeFeatures (rsi adx atr williamsR cci : ℚ) : List ℚ :=
  [rsi / 100, adx / 100, min (atr * 100) 1, (williamsR + 100) / 100, (cci + 200) / 400]

/-- ai-engine.js `addTrainingSample`: normalize, one-hot label from the
win/loss flag, push, keep the last 500 (`slice(-500)`), bump the counter,
and report whether this call triggers a retrain
(`signalCount % 50 === 0 && trainingData.length >= 20`). -/
def addTrainingSample (st : TrainState) (rsi adx atr williamsR cci : ℚ)
    (action : Action) (wasWin : Bool) : TrainState × Bool :=
  let features := normalizeFeatures rsi adx atr williamsR cci
  let label : List ℚ :=
    if wasWin then (if action = Action.BUY then [1, 0] else [0, 1])
    else (if action = Action.BUY then [0, 1] else [1, 0])
  let data0 := st.trainingData ++ [⟨features, label⟩]
  let data := if data0.length > 500 then data0.drop (data0.length - 500) else data0
  let count := st.signalCount + 1
  (⟨data, count⟩, decide (count % 50 = 0) && decide (data.length ≥ 20))

end AIJS

namespace AITF

/-- The TensorFlow.js file's `normalizeFeatures`. -/
def normalizeFeatures (rsi adx atr williamsR cci : ℚ) : List ℚ :=
  [rsi / 100, adx / 100, min (atr * 100) 1, (williamsR + 100) / 100, (cci + 200) / 400]

/-- The TensorFlow.js file's `addTrainingSample`. -/
def addTrainingSample (st : TrainState) (rsi adx atr williamsR cci : ℚ)
    (action : Action) (wasWin : Bool) : TrainState × Bool :=
  let features := normalizeFeatures rsi adx atr williamsR cci
  let label : List ℚ :=
    if wasWin then (if action = Action.BUY then [1, 0] else [0, 1])
    else (if action = Action.BUY then [0, 1] else [1, 0])
  let data0 := st.trainingData ++ [⟨features, label⟩]
  let data := if data0.length > 500 then data0.drop (data0.length - 500) else data0
  let count := st.signalCount + 1
  (⟨data, count⟩, decide (count % 50 = 0) && decide (data.length ≥ 20))

end AITF

/-! ## Theorems -/

/-- Claim C9: The transition matrix is never touched by `detectRegime` or by
`reset`: both leave all sixteen entries unchanged, for every observation and
every module state; only `updateTransitionMatrix`'s EMA blend writes it. -/
theorem transitionMatrix_frame (o : Observation) (s : HMMState) :
    (detectRegime o s).1.transitionMatrix = s.transitionMatrix ∧
    (reset s).transitionMatrix = s.transitionMatrix := by
  refine ⟨?_, rfl⟩
  unfold detectRegime
  split <;> rfl

unseal Rat.add Rat.mul Rat.inv Rat.sub Rat.ofScientific in
/-- Claim C1 counterexample: a negative `adx` is NOT caught by the source's
falsiness guard (`!adx`), so the claim's "non-positive (including negative
values)" case is processed as an ordinary observation: on
{adx: -5, atr: 0.01, avgPrice: 1} the classifier returns confidence
15000/157 ≈ 95.5 (not 50), a non-uniform probability vector, and appends to
the state history. -/
theorem detectRegime_negative_cex :
    (detectRegime ⟨some (-5), some 0.01, some 1, none, none⟩ initialHMMState).2.confidence ≠ 50 ∧
    (detectRegime ⟨some (-5), some 0.01, some 1, none, none⟩ initialHMMState).2.stateProbs 1 ≠ 0.25 ∧
    (detectRegime ⟨some (-5), some 0.01, some 1, none, none⟩
      initialHMMState).1.stateHistory.length = 1 ∧
    initialHMMState.stateHistory.length = 0 := by
  decide

/-- Claim C1 (amended): whenever `adx`, `atr`, or `avgPrice` is missing, NaN,
or zero — the JavaScript-falsy values the guard `!adx || !atr || !avgPrice`
actually catches; a negative value passes the guard — `detectRegime` returns
the previously held state with the uniform vector [0.25, 0.25, 0.25, 0.25]
and confidence 50, never throws (it is a total function), and leaves the
whole module state, held state and history included, unchanged. -/
theorem detectRegime_falsy_soft_fail (o : Observation) (s : HMMState)
    (h : (jsFalsy o.adx || jsFalsy o.atr || jsFalsy o.avgPrice) = true) :
    (detectRegime o s).1 = s ∧
    (detectRegime o s).2.state = s.currentState ∧
    (detectRegime o s).2.confidence = 50 ∧
    ∀ j, (detectRegime o s).2.stateProbs j = 0.25 := by
  unfold detectRegime
  rw [if_pos h]
  exact ⟨rfl, rfl, rfl, fun j => rfl⟩

/-- Claim C1 witness: the soft-fail theorem applied to a missing `adx`. -/
theorem detectRegime_falsy_soft_fail_witness :
    (detectRegime ⟨none, some 1, some 1, none, none⟩ initialHMMState).1 = initialHMMState ∧
    (detectRegime ⟨none, some 1, some 1, none, none⟩ initialHMMState).2.state =
      initialHMMState.currentState ∧
    (detectRegime ⟨none, some 1, some 1, none, none⟩ initialHMMState).2.confidence = 50 ∧
    ∀ j, (detectRegime ⟨none, some 1, some 1, none, none⟩
      initialHMMState).2.stateProbs j = 0.25 :=
  detectRegime_falsy_soft_fail _ _ rfl

unseal Rat.add Rat.mul Rat.inv Rat.sub Rat.ofScientific in
/-- Claim C4 counterexample: on {adx: 30, atr: 0.008, avgPrice: 1} from state
RANGING with the default matrix, the posterior is
[81, 75, 12, 1]/169, so the confidence is 8100/169 ≈ 47.93 — the regime is
TRENDING as claimed, but the confidence is NOT strictly greater than 50. -/
theorem detectRegime_scenario_confidence_cex :
    (detectRegime ⟨some 30, some 0.008, some 1, none, none⟩ initialHMMState).2.state = 0 ∧
    ¬ ((detectRegime ⟨some 30, some 0.008, some 1, none, none⟩
      initialHMMState).2.confidence > 50) := by
  decide

unseal Rat.add Rat.mul Rat.inv Rat.sub Rat.ofScientific in
/-- Claim C4 (amended): on {adx: 30, atr: 0.008, avgPrice: 1} from current
state RANGING with the default transition matrix, `detectRegime` classifies
the regime as TRENDING, with confidence exactly 8100/169 ≈ 47.93 — strictly
greater than 45 but not greater than 50. -/
theorem detectRegime_scenario_trending :
    (detectRegime ⟨some 30, some 0.008, some 1, none, none⟩ initialHMMState).2.state = 0 ∧
    (detectRegime ⟨some 30, some 0.008, some 1, none, none⟩
      initialHMMState).2.confidence = 8100 / 169 ∧
    (detectRegime ⟨some 30, some 0.008, some 1, none, none⟩
      initialHMMState).2.confidence > 45 := by
  decide

/-- One `updateTransitionMatrix` call preserves unit row sums: an updated row is
`0.9 * old + 0.1 * observed` where both the old row and the observed
frequency row sum to 1; a skipped row is untouched. -/
theorem sum4_updateTransitionMatrix (s : HMMState)
    (h : ∀ i, sum4 (fun j => s.transitionMatrix i j) = 1) (i : StateIdx) :
    sum4 (fun j => (updateTransitionMatrix s).transitionMatrix i j) = 1 := by
  unfold updateTransitionMatrix
  split
  · exact h i
  · dsimp only [sum4]
    set st := s.stateHistory.map HistEntry.state with hst
    by_cases hr : countTrans st i 0 + countTrans st i 1 + countTrans st i 2 +
        countTrans st i 3 > 0
    · simp only [if_pos hr]
      have h1 := h i
      dsimp only [sum4] at h1
      have hS : ((countTrans st i 0 + countTrans st i 1 + countTrans st i 2 +
          countTrans st i 3 : ℕ) : ℚ) ≠ 0 := by
        exact_mod_cast hr.ne'
      have hfrac : ((countTrans st i 0 : ℚ)) / ((countTrans st i 0 + countTrans st i 1 +
            countTrans st i 2 + countTrans st i 3 : ℕ) : ℚ) +
          ((countTrans st i 1 : ℚ)) / ((countTrans st i 0 + countTrans st i 1 +
            countTrans st i 2 + countTrans st i 3 : ℕ) : ℚ) +
          ((countTrans st i 2 : ℚ)) / ((countTrans st i 0 + countTrans st i 1 +
            countTrans st i 2 + countTrans st i 3 : ℕ) : ℚ) +
          ((countTrans st i 3 : ℚ)) / ((countTrans st i 0 + countTrans st i 1 +
            countTrans st i 2 + countTrans st i 3 : ℕ) : ℚ) = 1 := by
        rw [div_add_div_same, div_add_div_same, div_add_div_same]
        rw [div_eq_one_iff_eq hS]
        push_cast
        ring
      linarith [hfrac, h1]
    · simp only [if_neg hr]
      exact h i

/-- Unit row sums are preserved along any sequence of update calls. -/
theorem sum4_foldl_updates (hs : List (List HistEntry)) (s : HMMState)
    (h : ∀ i, sum4 (fun j => s.transitionMatrix i j) = 1) :
    ∀ i, sum4 (fun j =>
      (hs.foldl (fun s h =>
        updateTransitionMatrix { s with stateHistory := h }) s).transitionMatrix i j) = 1 := by
  induction hs generalizing s with
  | nil => exact h
  | cons hd tl ih =>
    exact ih _ (fun i => sum4_updateTransitionMatrix { s with stateHistory := hd } h i)

unseal Rat.add Rat.mul Rat.inv Rat.sub Rat.ofScientific in
/-- Claim C3: starting from the initial transition matrix, after every
sequence of `updateTransitionMatrix` calls (the EMA blend
`new = (1-0.1)*old + 0.1*observed`, applied only to rows with at least one
observed transition, with arbitrary ring contents before each call), each of
the four rows sums to 1 within 1e-6 (in fact exactly). -/
theorem transitionMatrix_rows_sum_one (hs : List (List HistEntry)) (i : StateIdx) :
    |sum4 (fun j => (runUpdates hs).transitionMatrix i j) - 1| ≤ 1 / 1000000 := by
  have hinit : ∀ i, sum4 (fun j => initialHMMState.transitionMatrix i j) = 1 := by decide
  have := sum4_foldl_updates hs initialHMMState hinit i
  unfold runUpdates
  rw [this]
  norm_num

/-- The source's argmax loop (strict improvement over an initial max of 0)
returns, for an everywhere-positive vector, the LOWEST index attaining the
maximum — regardless of the initial `bestState = currentState` seed. -/
theorem argmaxLoop_spec (p : StateIdx → ℚ) (c : StateIdx) (hp : ∀ j, 0 < p j) :
    (∀ j, p j ≤ p (argmaxLoop p c).1) ∧
    (∀ j, p j = p (argmaxLoop p c).1 → (argmaxLoop p c).1 ≤ j) := by
  have hp0 := hp 0
  have hp1 := hp 1
  have hp2 := hp 2
  have hp3 := hp 3
  unfold argmaxLoop
  simp only [List.foldl, argmaxStep]
  split_ifs <;>
    refine ⟨fun j => ?_, fun j hj => ?_⟩ <;>
    fin_cases j <;>
    simp_all <;>
    first
      | rfl
      | decide
      | linarith

/-- Every emission probability is strictly positive: each raw heuristic
value is positive in each of its branches, and so is their sum. -/
theorem emission_pos (adx atrRatio tf se : ℚ) (i : StateIdx) :
    0 < calculateEmissionProbabilities adx atrRatio tf se i := by
  unfold calculateEmissionProbabilities
  have hT : 0 < (if adx > 25 then min 1 (adx / 50) * 0.9 else (0.1 : ℚ)) := by
    split_ifs with h
    · have hq : (0 : ℚ) < adx / 50 := by
        apply div_pos (by linarith) (by norm_num)
      have hm : 0 < min 1 (adx / 50) := lt_min (by norm_num) hq
      nlinarith
    · norm_num
  have hR : 0 < (if adx < 20 ∧ atrRatio < 0.015 then (0.8 : ℚ)
      else if adx < 25 then 0.5 else 0.1) := by
    split_ifs <;> norm_num
  have hV : 0 < (if atrRatio > 0.015 ∧ atrRatio < 0.03 then min 1 (atrRatio / 0.03) * 0.85
      else (0.15 : ℚ)) := by
    split_ifs with h
    · have hq : (0 : ℚ) < atrRatio / 0.03 := by
        apply div_pos (by linarith [h.1]) (by norm_num)
      have hm : 0 < min 1 (atrRatio / 0.03) := lt_min (by norm_num) hq
      nlinarith
    · norm_num
  have hC : 0 < (if (adx < 15 ∧ atrRatio > 0.025) ∨ atrRatio > 0.035 then (0.9 : ℚ)
      else if atrRatio > 0.02 then 0.4 else 0.05) := by
    split_ifs <;> norm_num
  have hsum : 0 < sum4 ![(if adx > 25 then min 1 (adx / 50) * 0.9 else (0.1 : ℚ)),
      (if adx < 20 ∧ atrRatio < 0.015 then (0.8 : ℚ) else if adx < 25 then 0.5 else 0.1),
      (if atrRatio > 0.015 ∧ atrRatio < 0.03 then min 1 (atrRatio / 0.03) * 0.85
        else (0.15 : ℚ)),
      (if (adx < 15 ∧ atrRatio > 0.025) ∨ atrRatio > 0.035 then (0.9 : ℚ)
        else if atrRatio > 0.02 then 0.4 else 0.05)] := by
    unfold sum4
    simp only [Matrix.cons_val_zero, Matrix.cons_val_one, Matrix.head_cons,
      Matrix.cons_val_two, Matrix.tail_cons, Matrix.cons_val_three]
    linarith
  fin_cases i <;>
    simp only [Matrix.cons_val_zero, Matrix.cons_val_one, Matrix.head_cons,
      Matrix.cons_val_two, Matrix.tail_cons, Matrix.cons_val_three, Fin.isValue] <;>
    exact div_pos (by assumption) hsum

unseal Rat.add Rat.mul Rat.inv Rat.sub Rat.ofScientific in
/-- Claim C5 counterexample: on {adx: 250/9, atr: 0.008, avgPrice: 1} from
current state RANGING with the default matrix, the normalized posterior is
[75, 75, 12, 1]/163 — the maximum is attained by BOTH TRENDING and the
current state RANGING — yet `detectRegime` moves to TRENDING instead of
keeping the current state: ties break toward the lowest index, not toward
the held state. -/
theorem detectRegime_tie_cex :
    (detectRegime ⟨some (250 / 9), some 0.008, some 1, none, none⟩
        initialHMMState).2.stateProbs 0 =
      (detectRegime ⟨some (250 / 9), some 0.008, some 1, none, none⟩
        initialHMMState).2.stateProbs 1 ∧
    (detectRegime ⟨some (250 / 9), some 0.008, some 1, none, none⟩
        initialHMMState).2.stateProbs 2 <
      (detectRegime ⟨some (250 / 9), some 0.008, some 1, none, none⟩
        initialHMMState).2.stateProbs 0 ∧
    (detectRegime ⟨some (250 / 9), some 0.008, some 1, none, none⟩
        initialHMMState).2.stateProbs 3 <
      (detectRegime ⟨some (250 / 9), some 0.008, some 1, none, none⟩
        initialHMMState).2.stateProbs 0 ∧
    initialHMMState.currentState = 1 ∧
    (detectRegime ⟨some (250 / 9), some 0.008, some 1, none, none⟩
      initialHMMState).2.state = 0 := by
  decide

/-- Claim C5 (amended): for every observation passing the input guard,
evaluated on a transition matrix with positive entries (as the initial
matrix and every EMA blend of it are), the regime returned by `detectRegime`
attains the maximum of the normalized posterior, and among tied maximizers
the LOWEST-indexed state is returned (state order TRENDING, RANGING,
VOLATILE, CHAOTIC) — the current state is kept only when it is that lowest
tied index. -/
theorem detectRegime_argmax_least (o : Observation) (s : HMMState)
    (hpos : ∀ i j, 0 < s.transitionMatrix i j)
    (hg : (jsFalsy o.adx || jsFalsy o.atr || jsFalsy o.avgPrice) = false) :
    (∀ j, (detectRegime o s).2.stateProbs j ≤
      (detectRegime o s).2.stateProbs (detectRegime o s).2.state) ∧
    (∀ j, (detectRegime o s).2.stateProbs j =
        (detectRegime o s).2.stateProbs (detectRegime o s).2.state →
      (detectRegime o s).2.state ≤ j) := by
  unfold detectRegime
  rw [if_neg (by simp [hg])]
  dsimp only
  have hpost : ∀ j, 0 < (calculateEmissionProbabilities (o.adx.getD 0)
      (o.atr.getD 0 / o.avgPrice.getD 0) (o.tickFrequency.getD 1)
      (o.spreadEstimate.getD 0.0001)) j * s.transitionMatrix s.currentState j :=
    fun j => mul_pos (emission_pos _ _ _ _ j) (hpos _ j)
  have hsum : 0 < sum4 (fun j => (calculateEmissionProbabilities (o.adx.getD 0)
      (o.atr.getD 0 / o.avgPrice.getD 0) (o.tickFrequency.getD 1)
      (o.spreadEstimate.getD 0.0001)) j * s.transitionMatrix s.currentState j) := by
    unfold sum4
    linarith [hpost 0, hpost 1, hpost 2, hpost 3]
  exact argmaxLoop_spec _ s.currentState (fun j => div_pos (hpost j) hsum)

unseal Rat.add Rat.mul Rat.inv Rat.sub Rat.ofScientific in
/-- Claim C5 witness: the argmax theorem applied to the concrete observation
{adx: 40, atr: 0.001, avgPrice: 1} on the initial module state, instantiated
at state RANGING. -/
theorem detectRegime_argmax_least_witness :
    (detectRegime ⟨some 40, some 0.001, some 1, none, none⟩
        initialHMMState).2.stateProbs 1 ≤
      (detectRegime ⟨some 40, some 0.001, some 1, none, none⟩
        initialHMMState).2.stateProbs
        (detectRegime ⟨some 40, some 0.001, some 1, none, none⟩
          initialHMMState).2.state :=
  (detectRegime_argmax_least _ _ (by decide) (by decide)).1 1

/-- When both regime keys resolve, `updateQValue` produces exactly the
Q-learning update, the history append, and the counter bump. -/
theorem updateQValue_found (s : RLState) (rg nx : String) (r n : Regime)
    (a : Action) (rew : ℚ) (hr : parseRegime rg = some r) (hn : parseRegime nx = some n) :
    updateQValue s rg a rew nx =
      { q := fun r' a' => if r' = r ∧ a' = a
          then s.q r a + 0.1 * (rew + 0.9 * max (s.q n .BUY) (s.q n .SELL) - s.q r a)
          else s.q r' a',
        rewardHistory := capReward (s.rewardHistory ++ [⟨rg, a, rew, s.q r a,
          s.q r a + 0.1 * (rew + 0.9 * max (s.q n .BUY) (s.q n .SELL) - s.q r a)⟩]),
        totalUpdates := s.totalUpdates + 1 } := by
  unfold updateQValue
  rw [hr, hn]

/-- When either regime key fails to resolve, `updateQValue` is the identity. -/
theorem updateQValue_missing (s : RLState) (rg nx : String) (a : Action) (rew : ℚ)
    (h : parseRegime rg = none ∨ parseRegime nx = none) :
    updateQValue s rg a rew nx = s := by
  cases hpr : parseRegime rg <;> cases hpn : parseRegime nx <;>
    simp_all [updateQValue]

/-- Claim C6: with both regime keys present, `updateQValue` sets the stored
Q-value to `Q[regime][action] + 0.1*(reward + 0.9*max(Q[next].BUY,
Q[next].SELL) - Q[regime][action])`, leaves every other Q-entry unchanged,
and appends exactly one event to the 500-capacity reward ring; with either
key absent the call is a complete no-op on the module state. -/
theorem updateQValue_spec (s : RLState) (rg nx : String) (a : Action) (rew : ℚ) :
    (∀ r n, parseRegime rg = some r → parseRegime nx = some n →
      (updateQValue s rg a rew nx).q r a =
        s.q r a + 0.1 * (rew + 0.9 * max (s.q n .BUY) (s.q n .SELL) - s.q r a) ∧
      (∀ r' a', ¬(r' = r ∧ a' = a) → (updateQValue s rg a rew nx).q r' a' = s.q r' a') ∧
      (updateQValue s rg a rew nx).rewardHistory =
        capReward (s.rewardHistory ++ [⟨rg, a, rew, s.q r a,
          s.q r a + 0.1 * (rew + 0.9 * max (s.q n .BUY) (s.q n .SELL) - s.q r a)⟩]) ∧
      (s.rewardHistory.length ≤ 500 →
        (updateQValue s rg a rew nx).rewardHistory.length ≤ 500)) ∧
    ((parseRegime rg = none ∨ parseRegime nx = none) →
      updateQValue s rg a rew nx = s) := by
  constructor
  · intro r n hr hn
    rw [updateQValue_found s rg nx r n a rew hr hn]
    refine ⟨by simp, fun r' a' h => by simp [h], rfl, ?_⟩
    intro hlen
    simp only [capReward]
    split
    · rename_i hgt
      simp only [List.length_tail, List.length_append, List.length_singleton] at hgt ⊢
      omega
    · rename_i hle
      simp only [List.length_append, List.length_singleton] at hle ⊢
      omega
  · exact updateQValue_missing s rg nx a rew

/-- Claim C6 witness: from the fresh Q-table, the update for
(TRENDING, BUY, reward +1, next RANGING) stores
0.5 + 0.1*(1 + 0.9*0.5 - 0.5) = 119/200, and a call with the unknown key
"NOPE" leaves the module state untouched. -/
theorem updateQValue_spec_witness :
    (updateQValue initialRLState ("TRENDING") Action.BUY 1 ("RANGING")).q
      Regime.TRENDING Action.BUY = 119 / 200 ∧
    updateQValue initialRLState ("NOPE") Action.BUY 1 ("RANGING") = initialRLState := by
  constructor
  · have h := ((updateQValue_spec initialRLState ("TRENDING") ("RANGING") Action.BUY 1).1
      Regime.TRENDING Regime.RANGING rfl rfl).1
    rw [h]
    norm_num [initialRLState, max_self]
  · exact (updateQValue_spec initialRLState ("NOPE") ("RANGING") Action.BUY 1).2 (Or.inl rfl)

/-- Unfolding one iteration of the repeated Q-update. -/
theorem iterQ_succ (r : Regime) (a : Action) (n : ℕ) :
    iterQ r a (n + 1) = qStep r a (iterQ r a n) := by
  unfold iterQ
  exact Function.iterate_succ_apply' (qStep r a) n initialRLState

/-- The four regime names parse back to themselves. -/
theorem parse_regimeName (r : Regime) : parseRegime (regimeName r) = some r := by
  cases r <;> rfl

/-- One `update(regime, action, +1, regime)` call keeps every Q-entry inside
[1/2, 10) and strictly increases the updated entry. -/
theorem qStep_bounds (r : Regime) (a : Action) (s : RLState)
    (h : ∀ r' a', 1 / 2 ≤ s.q r' a' ∧ s.q r' a' < 10) :
    (∀ r' a', 1 / 2 ≤ (qStep r a s).q r' a' ∧ (qStep r a s).q r' a' < 10) ∧
    s.q r a < (qStep r a s).q r a := by
  unfold qStep
  rw [updateQValue_found s (regimeName r) (regimeName r) r r a 1
    (parse_regimeName r) (parse_regimeName r)]
  have hm1 : 1 / 2 ≤ max (s.q r .BUY) (s.q r .SELL) :=
    le_trans (h r .BUY).1 (le_max_left _ _)
  have hm2 : max (s.q r .BUY) (s.q r .SELL) < 10 :=
    max_lt (h r .BUY).2 (h r .SELL).2
  constructor
  · intro r' a'
    dsimp only
    split
    · obtain ⟨h1, h2⟩ := h r a
      constructor <;> linarith
    · exact h r' a'
  · dsimp only
    rw [if_pos ⟨rfl, rfl⟩]
    have hq := (h r a).2
    have hge : s.q r a ≤ max (s.q r .BUY) (s.q r .SELL) := by
      cases a
      · exact le_max_left _ _
      · exact le_max_right _ _
    linarith

/-- Claim C7: starting from the initial Q-table (all entries 0.5), along any
number of repeated calls `updateQValue(regime, action, +1, regime)` with
fixed regime and action (10,000 included), every Q-value stays inside the
finite band [1/2, 10), and the updated Q-value strictly increases on each
call — it is always below the Bellman fixed point 10 implied by reward 1,
learning rate 0.1 and discount 0.9. -/
theorem qvalue_bounded_monotone (r : Regime) (a : Action) (n : ℕ) :
    (∀ r' a', 1 / 2 ≤ (iterQ r a n).q r' a' ∧ (iterQ r a n).q r' a' < 10) ∧
    (iterQ r a n).q r a < (iterQ r a (n + 1)).q r a := by
  have inv : ∀ m, ∀ r' a', 1 / 2 ≤ (iterQ r a m).q r' a' ∧ (iterQ r a m).q r' a' < 10 := by
    intro m
    induction m with
    | zero =>
      intro r' a'
      constructor <;> norm_num [iterQ, initialRLState]
    | succ k ih =>
      intro r' a'
      rw [iterQ_succ]
      exact (qStep_bounds r a (iterQ r a k) ih).1 r' a'
  refine ⟨inv n, ?_⟩
  have hstep := (qStep_bounds r a (iterQ r a n) (inv n)).2
  rw [iterQ_succ]
  exact hstep

/-- Non-finite values absorb through the JavaScript arithmetic wrappers. -/
theorem jadd_none_left (x : JsNum) : jadd none x = none := by cases x <;> rfl

theorem jadd_none_right (x : JsNum) : jadd x none = none := by cases x <;> rfl

theorem jmul_none_right (x : JsNum) : jmul x none = none := by cases x <;> rfl

theorem jsub_none_left (x : JsNum) : jsub none x = none := by cases x <;> rfl

theorem jdiv_none_left (x : JsNum) : jdiv none x = none := by cases x <;> rfl

/-- Indexing a list whose members are all non-finite gives a non-finite value
(out of bounds included). -/
theorem jsIndex_none (v : List JsNum) (i : ℕ) (h : ∀ x ∈ v, x = none) :
    jsIndex v i = none := by
  unfold jsIndex
  cases hv : v.get? i with
  | none => rfl
  | some x => exact h x (List.get?_mem hv)

/-- Indexing past the end of the vector reads `undefined`. -/
theorem jsIndex_oob (v : List JsNum) (i : ℕ) (h : v.length ≤ i) : jsIndex v i = none := by
  unfold jsIndex
  rw [List.get?_eq_none.2 h]
  rfl

/-- Once the running sum of the source's reduce is NaN it stays NaN. -/
theorem dotAux_none (v : List JsNum) (l : List JsNum) (i : ℕ) :
    dotAux v l i none = none := by
  induction l generalizing i with
  | nil => rfl
  | cons a rest ih =>
    rw [dotAux, jadd_none_left]
    exact ih (i + 1)

/-- A reduce step whose vector read is non-finite poisons the whole dot. -/
theorem dotAux_absorb (v : List JsNum) (a : JsNum) (rest : List JsNum) (i : ℕ) (s : JsNum)
    (h : jsIndex v i = none) : dotAux v (a :: rest) i s = none := by
  rw [dotAux, h, jmul_none_right, jadd_none_right]
  exact dotAux_none v rest (i + 1)

/-- A row longer than the vector overruns it, so its dot ends NaN: this is
the transposed-weight bug of `matmul(this.w1, input)`. -/
theorem dotAux_overrun (v : List JsNum) : ∀ (l : List JsNum) (i : ℕ) (s : JsNum),
    l ≠ [] → v.length < i + l.length → dotAux v l i s = none := by
  intro l
  induction l with
  | nil => intro i s h _; exact absurd rfl h
  | cons a rest ih =>
    intro i s _ hlen
    by_cases hge : v.length ≤ i
    · exact dotAux_absorb v a rest i s (jsIndex_oob v i hge)
    · push_neg at hge
      rw [dotAux]
      cases rest with
      | nil =>
        exfalso
        simp only [List.length_cons, List.length_nil] at hlen
        omega
      | cons b rest' =>
        apply ih (i + 1) _ (by simp)
        simp only [List.length_cons] at hlen ⊢
        omega

/-- Every output of `matmul` is NaN when every row is longer than the vector. -/
theorem matmul_none_of_wide (m : List (List JsNum)) (v : List JsNum)
    (h : ∀ row ∈ m, v.length < row.length) : ∀ x ∈ matmul m v, x = none := by
  intro x hx
  unfold matmul at hx
  rw [List.mem_map] at hx
  obtain ⟨row, hrow, rfl⟩ := hx
  have hne : row ≠ [] := by
    intro hr
    have := h row hrow
    rw [hr] at this
    simp at this
  exact dotAux_overrun v row 0 (some 0) hne (by simpa using h row hrow)

/-- Every output of `matmul` is NaN when the vector's first read is NaN and
no row is empty. -/
theorem matmul_none_of_headNone (m : List (List JsNum)) (v : List JsNum)
    (hm : ∀ row ∈ m, row ≠ []) (hv : jsIndex v 0 = none) :
    ∀ x ∈ matmul m v, x = none := by
  intro x hx
  unfold matmul at hx
  rw [List.mem_map] at hx
  obtain ⟨row, hrow, rfl⟩ := hx
  cases row with
  | nil => exact absurd rfl (hm [] hrow)
  | cons a rest => exact dotAux_absorb v a rest 0 (some 0) hv

/-- Adding a bias to all-NaN pre-activations keeps them all NaN. -/
theorem withBias_none (b : List JsNum) : ∀ (l : List JsNum) (i : ℕ),
    (∀ x ∈ l, x = none) → ∀ y ∈ withBias b l i, y = none := by
  intro l
  induction l with
  | nil =>
    intro i _ y hy
    simp [withBias] at hy
  | cons a rest ih =>
    intro i h y hy
    rw [withBias] at hy
    rcases List.mem_cons.1 hy with h1 | h2
    · rw [h1, h a (by simp), jadd_none_left]
    · exact ih (i + 1) (fun x hx => h x (by simp [hx])) y h2

/-- ReLU of all-NaN stays all-NaN (`Math.max(0, NaN)` is NaN). -/
theorem reluLayer_none (pre b : List JsNum) (h : ∀ x ∈ pre, x = none) :
    ∀ y ∈ reluLayer pre b, y = none := by
  intro y hy
  unfold reluLayer at hy
  rw [List.mem_map] at hy
  obtain ⟨z, hz, rfl⟩ := hy
  rw [withBias_none b pre 0 h z hz]
  rfl

/-- Softmax of an all-NaN array is all-NaN. -/
theorem softmax_none (e : ℚ → ℚ) (arr : List JsNum) (h : ∀ x ∈ arr, x = none) :
    ∀ y ∈ softmax e arr, y = none := by
  intro y hy
  unfold softmax at hy
  rw [List.mem_map] at hy
  obtain ⟨z, hz, rfl⟩ := hy
  rw [List.mem_map] at hz
  obtain ⟨w, hw, rfl⟩ := hz
  rw [h w hw, jsub_none_left]
  exact jdiv_none_left _

/-- `withBias` preserves length. -/
theorem withBias_length (b : List JsNum) : ∀ (l : List JsNum) (i : ℕ),
    (withBias b l i).length = l.length := by
  intro l
  induction l with
  | nil => intro i; rfl
  | cons a rest ih => intro i; simp [withBias, ih (i + 1)]

/-- `reluLayer` preserves length. -/
theorem reluLayer_length (pre b : List JsNum) :
    (reluLayer pre b).length = pre.length := by
  unfold reluLayer
  rw [List.length_map, withBias_length]

/-- `matmul` yields one output per row. -/
theorem matmul_length (m : List (List JsNum)) (v : List JsNum) :
    (matmul m v).length = m.length :=
  List.length_map _ _

/-- Claim C2: the pure-JavaScript predictor can NEVER produce probabilities
summing to 1.  With the shapes built by `new SimpleNN(5, 16, 8, 2)` —
`w1` has 5 rows of 16 entries, which `matmul` dots against the 5-entry input,
reading `input[5..15]` as `undefined` — every forward-pass value is NaN for
every finite input and all finite weights: `buyProb` and `sellProb` are NaN,
their sum is NaN (not 1 ± 1e-6), the action always falls to SELL (NaN
comparisons are false) and the confidence is NaN.  The spec's softmax
invariant describes the documented architecture, not this code. -/
theorem predict_probs_nan (e : ℚ → ℚ) (m : SimpleNN) (input : List JsNum)
    (h1 : m.w1.length = 5) (h1r : ∀ row ∈ m.w1, row.length = 16)
    (_h2 : m.w2.length = 16) (h2r : ∀ row ∈ m.w2, row.length = 8)
    (_h3 : m.w3.length = 8) (h3r : ∀ row ∈ m.w3, row.length = 2)
    (hin : input.length = 5) :
    (predictNN e m input).buyProb = none ∧
    (predictNN e m input).sellProb = none ∧
    jadd (predictNN e m input).buyProb (predictNN e m input).sellProb = none ∧
    (predictNN e m input).buy = false ∧
    (predictNN e m input).confidence = none := by
  have hm1 : ∀ x ∈ matmul m.w1 input, x = none :=
    matmul_none_of_wide _ _ (fun row hr => by rw [hin, h1r row hr]; norm_num)
  have hh1len : (reluLayer (matmul m.w1 input) m.b1).length = 5 := by
    rw [reluLayer_length, matmul_length, h1]
  have hm2 : ∀ x ∈ matmul m.w2 (reluLayer (matmul m.w1 input) m.b1), x = none :=
    matmul_none_of_wide _ _ (fun row hr => by rw [hh1len, h2r row hr]; norm_num)
  have hh2 : ∀ x ∈ reluLayer (matmul m.w2 (reluLayer (matmul m.w1 input) m.b1)) m.b2,
      x = none := reluLayer_none _ _ hm2
  have hm3 : ∀ x ∈ matmul m.w3
      (reluLayer (matmul m.w2 (reluLayer (matmul m.w1 input) m.b1)) m.b2), x = none := by
    refine matmul_none_of_headNone _ _ (fun row hr => ?_) (jsIndex_none _ _ hh2)
    intro hnil
    have := h3r row hr
    rw [hnil] at this
    simp at this
  have hout : ∀ x ∈ biasLayer (matmul m.w3
      (reluLayer (matmul m.w2 (reluLayer (matmul m.w1 input) m.b1)) m.b2)) m.b3,
      x = none := withBias_none _ _ 0 hm3
  have hfwd : ∀ x ∈ forward e m input, x = none := softmax_none _ _ hout
  have hbp : (predictNN e m input).buyProb = none := jsIndex_none _ 0 hfwd
  have hsp : (predictNN e m input).sellProb = none := jsIndex_none _ 1 hfwd
  refine ⟨hbp, hsp, ?_, ?_, ?_⟩
  · rw [hbp, hsp]; rfl
  · have : (predictNN e m input).buy =
        jgtb (predictNN e m input).buyProb (predictNN e m input).sellProb := rfl
    rw [this, hbp, hsp]; rfl
  · have : (predictNN e m input).confidence =
        jmul (jmax2 (predictNN e m input).buyProb (predictNN e m input).sellProb)
          (some 100) := rfl
    rw [this, hbp, hsp]; rfl

/-- Claim C2 witness: the NaN theorem evaluated on the all-zero model of the
constructed shape and the zero feature vector. -/
theorem predict_probs_nan_witness :
    (predictNN (fun q => q)
      ⟨List.replicate 5 (List.replicate 16 (some 0)), List.replicate 16 (some 0),
        List.replicate 16 (List.replicate 8 (some 0)), List.replicate 8 (some 0),
        List.replicate 8 (List.replicate 2 (some 0)), List.replicate 2 (some 0)⟩
      (List.replicate 5 (some 0))).buyProb = none ∧
    jadd (predictNN (fun q => q)
      ⟨List.replicate 5 (List.replicate 16 (some 0)), List.replicate 16 (some 0),
        List.replicate 16 (List.replicate 8 (some 0)), List.replicate 8 (some 0),
        List.replicate 8 (List.replicate 2 (some 0)), List.replicate 2 (some 0)⟩
      (List.replicate 5 (some 0))).buyProb
      (predictNN (fun q => q)
      ⟨List.replicate 5 (List.replicate 16 (some 0)), List.replicate 16 (some 0),
        List.replicate 16 (List.replicate 8 (some 0)), List.replicate 8 (some 0),
        List.replicate 8 (List.replicate 2 (some 0)), List.replicate 2 (some 0)⟩
      (List.replicate 5 (some 0))).sellProb = none := by
  have h := predict_probs_nan (fun q => q)
    ⟨List.replicate 5 (List.replicate 16 (some 0)), List.replicate 16 (some 0),
      List.replicate 16 (List.replicate 8 (some 0)), List.replicate 8 (some 0),
      List.replicate 8 (List.replicate 2 (some 0)), List.replicate 2 (some 0)⟩
    (List.replicate 5 (some 0))
    (by simp) (fun row hr => by rw [List.eq_of_mem_replicate hr]; simp)
    (by simp) (fun row hr => by rw [List.eq_of_mem_replicate hr]; simp)
    (by simp) (fun row hr => by rw [List.eq_of_mem_replicate hr]; simp)
    (by simp)
  exact ⟨h.1, h.2.2.1⟩

/-- One backtest loop iteration bumps the win tally exactly on WIN and the
loss tally exactly on LOSS, whatever the regime bucket does. -/
theorem btStep_counts (acc : BTAcc) (sig : Signal) :
    (btStep acc sig).wins = acc.wins + (if sig.result = SResult.WIN then 1 else 0) ∧
    (btStep acc sig).losses = acc.losses + (if sig.result = SResult.LOSS then 1 else 0) := by
  cases hres : sig.result <;> cases hpr : parseRegime sig.regime <;>
    simp [btStep, hres, hpr]

/-- The backtest fold counts exactly the WIN and LOSS signals. -/
theorem btFold_counts (sigs : List Signal) (acc : BTAcc) :
    (sigs.foldl btStep acc).wins =
      acc.wins + sigs.countP (fun s => decide (s.result = SResult.WIN)) ∧
    (sigs.foldl btStep acc).losses =
      acc.losses + sigs.countP (fun s => decide (s.result = SResult.LOSS)) := by
  induction sigs generalizing acc with
  | nil => simp
  | cons hd tl ih =>
    obtain ⟨hw, hl⟩ := btStep_counts acc hd
    simp only [List.foldl_cons, List.countP_cons]
    constructor
    · rw [(ih (btStep acc hd)).1, hw]
      by_cases hc : hd.result = SResult.WIN <;>
        simp [hc, Nat.add_comm, Nat.add_assoc, Nat.add_left_comm]
    · rw [(ih (btStep acc hd)).2, hl]
      by_cases hc : hd.result = SResult.LOSS <;>
        simp [hc, Nat.add_comm, Nat.add_assoc, Nat.add_left_comm]

/-- Claim C8 (amended): for every list of signals containing at least one
LOSS, `runBacktest` returns a result whose `wins`/`losses` are the counts of
WIN/LOSS signals and whose `profitFactor` equals
(wins*stake*payout) / (losses*stake) with stake 10 and payout 0.85.  (When
no LOSS is present the source returns the sentinel 0 instead of the
formula — see the counterexample.) -/
theorem runBacktest_profitFactor (sigs : List Signal)
    (h : 0 < sigs.countP (fun s => decide (s.result = SResult.LOSS))) :
    ∃ r, runBacktest sigs = some r ∧
      r.wins = sigs.countP (fun s => decide (s.result = SResult.WIN)) ∧
      r.losses = sigs.countP (fun s => decide (s.result = SResult.LOSS)) ∧
      r.profitFactor = ((r.wins : ℚ) * 10 * 0.85) / ((r.losses : ℚ) * 10) := by
  obtain ⟨hw, hl⟩ := btFold_counts sigs btInit
  have hw' : (sigs.foldl btStep btInit).wins =
      sigs.countP (fun s => decide (s.result = SResult.WIN)) := by
    rw [hw]; simp [btInit]
  have hl' : (sigs.foldl btStep btInit).losses =
      sigs.countP (fun s => decide (s.result = SResult.LOSS)) := by
    rw [hl]; simp [btInit]
  have hlen : ¬ sigs.length = 0 := by
    cases sigs with
    | nil => simp at h
    | cons hd tl => simp
  unfold runBacktest
  rw [if_neg hlen]
  refine ⟨_, rfl, hw', hl', ?_⟩
  simp only [hw', hl']
  rw [if_pos h]

/-- Claim C8 witness: on one WIN and one LOSS the profit factor is
(1*10*0.85)/(1*10) = 17/20. -/
theorem runBacktest_profitFactor_witness :
    ∃ r, runBacktest [⟨SResult.WIN, "TRENDING"⟩, ⟨SResult.LOSS, "RANGING"⟩] = some r ∧
      r.profitFactor = 17 / 20 := by
  obtain ⟨r, hr, hw, hl, hpf⟩ := runBacktest_profitFactor
    [⟨SResult.WIN, "TRENDING"⟩, ⟨SResult.LOSS, "RANGING"⟩] (by decide)
  have h1 : ([⟨SResult.WIN, "TRENDING"⟩, ⟨SResult.LOSS, "RANGING"⟩] : List Signal).countP
      (fun s => decide (s.result = SResult.WIN)) = 1 := by decide
  have h2 : ([⟨SResult.WIN, "TRENDING"⟩, ⟨SResult.LOSS, "RANGING"⟩] : List Signal).countP
      (fun s => decide (s.result = SResult.LOSS)) = 1 := by decide
  refine ⟨r, hr, ?_⟩
  rw [hpf, hw, hl, h1, h2]
  norm_num

unseal Rat.add Rat.mul Rat.inv Rat.sub Rat.ofScientific in
/-- Claim C8 counterexample: on the non-empty all-WIN list the source
returns profitFactor 0 (its `losses > 0` guard fails), and 0 does not
satisfy the claimed identity profitFactor*(losses*stake) = wins*stake*payout
(0 ≠ 8.5), so the claim fails for lists without a LOSS. -/
theorem runBacktest_profitFactor_cex :
    (runBacktest [⟨SResult.WIN, "TRENDING"⟩]).map
      (fun r => (r.wins, r.losses, r.profitFactor)) = some (1, 0, 0) ∧
    ¬ ((0 : ℚ) * ((0 : ℚ) * 10) = (1 : ℚ) * 10 * 0.85) := by
  decide

/-- Claim C10: the pure-JavaScript AIEngine and the TensorFlow.js variant
compute the same normalized feature vector and, from any identical prior
buffer state, the same `addTrainingSample` result: same one-hot label, same
500-capacity oldest-first eviction, and the same retrain-trigger decision
(counter a multiple of 50 and at least 20 buffered samples). -/
theorem aiengines_equivalent (st : TrainState) (rsi adx atr williamsR cci : ℚ)
    (action : Action) (wasWin : Bool) :
    AIJS.normalizeFeatures rsi adx atr williamsR cci =
      AITF.normalizeFeatures rsi adx atr williamsR cci ∧
    AIJS.addTrainingSample st rsi adx atr williamsR cci action wasWin =
      AITF.addTrainingSample st rsi adx atr williamsR cci action wasWin :=
  ⟨rfl, rfl⟩

end PocketScout
